import Mathlib

/-!
# Verification of the FloodImpactMapping category-resolution core

Shallow embedding of the raster-vector category resolution and aggregation
engine of the FloodImpactMapping repository:

* `check_flood_at_point` embeds `check_flood_at_point`
  (src/analyze_flood_accuracy.py, lines 44-101);
* `get_flood_category_at_point` embeds
  `FloodImpactMapper.get_flood_category_at_point`
  (src/flood_impact_mapper.py, lines 104-153);
* `get_max_flood_for_line` embeds `get_max_flood_for_line`
  (src/flood_impact_mapper.py, lines 281-296);
* `filter_unique_features` embeds `filter_unique_features`
  (src/analyze_flood_accuracy.py, lines 103-130);
* `analyze_flood_accuracy` embeds `analyze_flood_accuracy`
  (src/analyze_flood_accuracy.py, lines 166-195).

Raster cell values are modelled as natural numbers (the rasters produced by
`prepare_flood_map.reclassify_flood_map` are uint8 with categories 0..4 and
no-data sentinel 255).  The external geometric operations performed by
geopandas / shapely / rasterio for one point (CRS reprojection, the
`rasterio.transform.rowcol` inverse affine transform, construction of the
circular buffer, and the set of raster cells rasterized from that buffer by
`rasterio.mask.mask`) are abstracted into a `PointLookup` record holding
their outcomes; both Python resolvers perform these operations with
identical calls, so one record feeds both embeddings.  Python exceptions
are modelled with `Except Unit`.
-/

/-- A single-band categorical raster: grid shape plus cell values, as read
by `rasterio` (band 1).  `data i j` is the value at row `i`, column `j`. -/
structure Raster where
  height : Nat
  width : Nat
  data : Nat → Nat → Nat

/-- Outcome of the external geometry pipeline for a single point, shared by
both resolvers (both execute the same calls on the same inputs):

* `reprojectOk`: the `gpd.GeoDataFrame(...).to_crs(...)` reprojection
  succeeded (it raises for example when the raster has no CRS);
* `row`, `col`: the integers returned by `rasterio.transform.rowcol` for
  the reprojected coordinates (possibly negative / out of bounds);
* `maskOk`: `rasterio.mask.mask(src, [buffer], crop=True, nodata=0)`
  succeeded (it raises when the buffer does not overlap the raster);
* `bufferCells`: the in-bounds raster cells rasterized from the circular
  buffer of the caller's search radius; `mask` keeps the source value on
  those cells (including no-data cells) and writes 0 elsewhere. -/
structure PointLookup where
  reprojectOk : Bool
  row : Int
  col : Int
  maskOk : Bool
  bufferCells : List (Nat × Nat)

/-- The bounds check `0 <= row < height and 0 <= col < width` performed by
both resolvers. -/
def inRasterBounds (r : Raster) (row col : Int) : Bool :=
  decide (0 ≤ row) && decide (row < (r.height : Int)) &&
  decide (0 ≤ col) && decide (col < (r.width : Int))

/-- The raster value at a (bounds-checked) cell: `flood_src.read(1,
window=((row, row+1), (col, col+1)))[0, 0]` in the analyzer,
`self.flood_data[row, col]` in the mapper — the same stored value. -/
def cellValue (r : Raster) (row col : Int) : Nat :=
  r.data row.toNat col.toNat

/-- `int(np.max(masked_data))` over the output of `rasterio.mask.mask(...,
nodata=0)`: the maximum of the source values on the cells covered by the
buffer and of the 0s written everywhere else in the cropped window. -/
def bufferMax (r : Raster) (cells : List (Nat × Nat)) : Nat :=
  cells.foldr (fun rc acc => Nat.max (r.data rc.1 rc.2) acc) 0

/-- Body of `check_flood_at_point` (src/analyze_flood_accuracy.py, lines
63-97), i.e. the code inside its `try:` block.  An `Except.error` is a
Python exception escaping the block. -/
def check_flood_body (r : Raster) (p : PointLookup) : Except Unit Nat :=
  if p.reprojectOk = false then Except.error () else
  if inRasterBounds r p.row p.col && decide (0 < cellValue r p.row p.col) then
    Except.ok (cellValue r p.row p.col)
  else if p.maskOk = false then Except.error ()
  else if 0 < bufferMax r p.bufferCells then Except.ok (bufferMax r p.bufferCells)
  else Except.ok 0

/-- `check_flood_at_point` (src/analyze_flood_accuracy.py, lines 44-101):
the whole body runs inside `try: ... except Exception: return 0`. -/
def check_flood_at_point (r : Raster) (p : PointLookup) : Nat :=
  match check_flood_body r p with
  | Except.ok v => v
  | Except.error _ => 0

/-- `FloodImpactMapper.get_flood_category_at_point`
(src/flood_impact_mapper.py, lines 104-153).  The reprojection and the
bounds-checked exact-cell lookup run outside any `try:`, so a reprojection
failure escapes to the caller (`Except.error`).  The exact cell value is
returned iff `point_value in self.flood_categories`, i.e. iff it lies in
{0, 1, 2, 3, 4}.  Only the buffer-mask step is wrapped in
`try: ... except Exception: return 0`, and its maximum is likewise
returned only when it lies in {0, 1, 2, 3, 4} (else 0). -/
def get_flood_category_at_point (r : Raster) (p : PointLookup) : Except Unit Nat :=
  if p.reprojectOk = false then Except.error () else
  Except.ok (
    if inRasterBounds r p.row p.col && decide (cellValue r p.row p.col ≤ 4) then
      cellValue r p.row p.col
    else if p.maskOk = false then 0
    else if bufferMax r p.bufferCells ≤ 4 then bufferMax r p.bufferCells
    else 0)

/-- A road geometry as seen by `get_max_flood_for_line`: either a
`LineString`, abstracted to the `PointLookup`s of its three sampled points
(`Point(line.coords[0])`, `Point(line.interpolate(0.5, normalized=True))`,
`Point(line.coords[-1])`), or any other geometry type. -/
inductive RoadGeometry where
  | lineString (startV midV endV : PointLookup)
  | nonLine

/-- `get_max_flood_for_line` (src/flood_impact_mapper.py, lines 281-296):
for a `LineString`, resolve the three sampled points with
`get_flood_category_at_point` (an exception in any of the three calls
propagates, there is no handler) and return the maximum of the three
categories; any other geometry type returns 0. -/
def get_max_flood_for_line (r : Raster) (g : RoadGeometry) : Except Unit Nat :=
  match g with
  | RoadGeometry.lineString a b c =>
    match get_flood_category_at_point r a with
    | Except.error e => Except.error e
    | Except.ok va =>
      match get_flood_category_at_point r b with
      | Except.error e => Except.error e
      | Except.ok vb =>
        match get_flood_category_at_point r c with
        | Except.error e => Except.error e
        | Except.ok vc => Except.ok (Nat.max va (Nat.max vb vc))
  | RoadGeometry.nonLine => Except.ok 0

/-- The spec's raster invariant: every cell holds a category in {0, ..., 4}
or the no-data sentinel 255 (the sentinel written by
`prepare_flood_map.reclassify_flood_map`). -/
def ValidRaster (r : Raster) : Prop :=
  ∀ i, i < r.height → ∀ j, j < r.width → (r.data i j ≤ 4 ∨ r.data i j = 255)

instance (r : Raster) : Decidable (ValidRaster r) := by
  unfold ValidRaster
  infer_instance

/-- Spec scenario raster: a 10 by 10 grid, every cell category 2 except the
cell (5, 5), which holds the explicit no-flood value 0. -/
def rasterCenter0 : Raster :=
  ⟨10, 10, fun i j => if i = 5 ∧ j = 5 then 0 else 2⟩

/-- Spec scenario raster: a 10 by 10 grid, every cell category 2 except the
cell (5, 5), which holds the no-data sentinel 255. -/
def rasterCenter255 : Raster :=
  ⟨10, 10, fun i j => if i = 5 ∧ j = 5 then 255 else 2⟩

/-- A point reprojected into cell (5, 5), with a buffer radius covering the
four neighbouring cell centers.  A Euclidean buffer that contains a
neighbouring cell's center necessarily contains the center of the cell the
point itself lies in, so (5, 5) is among the rasterized buffer cells. -/
def p55 : PointLookup :=
  ⟨true, 5, 5, true, [(5, 5), (4, 5), (6, 5), (5, 4), (5, 6)]⟩

/-- One record of a GeoDataFrame as consumed by the deduplicator: the
point geometry's coordinates (`geometry.x`, `geometry.y`, modelled as exact
rationals) and the values of the attribute columns, positionally aligned
with the frame's column list. -/
structure Row where
  x : ℚ
  y : ℚ
  vals : List ℚ
deriving DecidableEq

/-- A GeoDataFrame: the ordered list of attribute column labels (besides
the geometry column) and the ordered rows. -/
structure GeoFrame where
  cols : List String
  rows : List Row
deriving DecidableEq

/-- A well-formed frame: each row carries one value per column. -/
def FrameWF (g : GeoFrame) : Prop :=
  ∀ u ∈ g.rows, u.vals.length = g.cols.length

/-- Round-half-to-even to an integer, the rounding rule of `np.round`. -/
def roundHalfEven (q : ℚ) : ℤ :=
  if q - (⌊q⌋ : ℚ) < (1 : ℚ) / 2 then ⌊q⌋
  else if (1 : ℚ) / 2 < q - (⌊q⌋ : ℚ) then ⌊q⌋ + 1
  else if ⌊q⌋ % 2 = 0 then ⌊q⌋ else ⌊q⌋ + 1

/-- `np.round(coordinate, decimals=d)`: round to `d` decimal places.  The
source derives `d` from the precision parameter as
`int(-np.log10(precision))`, i.e. `d` decimals for precision `10 ^ (-d)`
(the only call sites use the default precision `1e-5`, hence `d = 5`). -/
def roundDec (d : Nat) (q : ℚ) : ℚ :=
  ((roundHalfEven (q * (10 : ℚ) ^ d) : ℤ) : ℚ) / (10 : ℚ) ^ d

/-- The rounded-coordinate deduplication key of a row. -/
def rkey (d : Nat) (u : Row) : ℚ × ℚ :=
  (roundDec d u.x, roundDec d u.y)

/-- A row extended with the two temporary rounded-coordinate values, as
produced on every row of the caller's frame by the two column assignments
in `filter_unique_features`. -/
def extRow (d : Nat) (u : Row) : Row :=
  ⟨u.x, u.y, u.vals ++ [roundDec d u.x, roundDec d u.y]⟩

/-- Pandas column assignment `gdf[name] = f(row)`: if the label exists the
column is overwritten in place, otherwise it is appended at the end. -/
def addCol (g : GeoFrame) (name : String) (f : Row → ℚ) : GeoFrame :=
  if name ∈ g.cols then
    ⟨g.cols,
     g.rows.map (fun u =>
       ⟨u.x, u.y, (g.cols.zip u.vals).map (fun c => if c.1 = name then f u else c.2)⟩)⟩
  else
    ⟨g.cols ++ [name], g.rows.map (fun u => ⟨u.x, u.y, u.vals ++ [f u]⟩)⟩

/-- Reading the value of a labelled column from a row
(the first column with that label). -/
def lookupCol (cols : List String) (name : String) (u : Row) : ℚ :=
  (((cols.zip u.vals).find? (fun c => c.1 == name)).map Prod.snd).getD 0

/-- Pandas `df.drop(columns=names)`: remove the named columns (returning a
new frame, the argument is untouched). -/
def dropCols (g : GeoFrame) (names : List String) : GeoFrame :=
  ⟨g.cols.filter (fun c => decide (c ∉ names)),
   g.rows.map (fun u =>
     ⟨u.x, u.y,
      ((g.cols.zip u.vals).filter (fun c => decide (c.1 ∉ names))).map Prod.snd⟩)⟩

/-- Pandas `df.drop_duplicates(subset=..., keep='first')` keyed by `key`:
keep each row whose key has not been seen on an earlier row, preserving
the original order.  `seen` accumulates the keys already kept. -/
def dropDuplicatesBy {α κ : Type} [DecidableEq κ] (key : α → κ) :
    List κ → List α → List α
  | _, [] => []
  | seen, u :: rest =>
    if key u ∈ seen then dropDuplicatesBy key seen rest
    else u :: dropDuplicatesBy key (key u :: seen) rest

/-- The three observable outcomes of `filter_unique_features`: the state of
the caller's frame after the call (the function assigns two new columns to
its argument), the returned filtered frame, and the count it reports as
"Filtered N repetitive features". -/
structure FilterResult where
  mutatedInput : GeoFrame
  filtered : GeoFrame
  removedCount : Nat
deriving DecidableEq

/-- `filter_unique_features` (src/analyze_flood_accuracy.py, lines
103-130) at rounding precision `10 ^ (-d)`:

1. assign `claims_gdf['rounded_x']` and `claims_gdf['rounded_y']` — this
   mutates the caller's frame;
2. `claims_gdf.drop_duplicates(subset=['rounded_x', 'rounded_y'])`
   (keep='first', returns a copy);
3. drop the two temporary columns from that copy;
4. report `len(claims_gdf) - len(unique_claims)` features removed. -/
def filter_unique_features (d : Nat) (g : GeoFrame) : FilterResult :=
  let g2 := addCol (addCol g "rounded_x" (fun u => roundDec d u.x))
      "rounded_y" (fun u => roundDec d u.y)
  let uniqueRows := dropDuplicatesBy
      (fun u => (lookupCol g2.cols "rounded_x" u, lookupCol g2.cols "rounded_y" u))
      [] g2.rows
  ⟨g2, dropCols ⟨g2.cols, uniqueRows⟩ ["rounded_x", "rounded_y"],
   g2.rows.length - uniqueRows.length⟩

/-- The aggregate record returned by `analyze_flood_accuracy` (the
`accuracy` float is modelled as an exact rational). -/
structure AccResult where
  total_claims : Nat
  covered_claims : Nat
  accuracy : ℚ
  flood_categories : List (Nat × Nat)
deriving DecidableEq

/-- `flood_categories = {0: 0, 1: 0, 2: 0, 3: 0, 4: 0}`. -/
def initHist : List (Nat × Nat) :=
  [(0, 0), (1, 0), (2, 0), (3, 0), (4, 0)]

/-- `flood_categories[flood_cat] += 1`: a Python dict update, raising
`KeyError` (modelled as `Except.error`) when the key is absent. -/
def histIncr (h : List (Nat × Nat)) (k : Nat) : Except Unit (List (Nat × Nat)) :=
  if h.any (fun c => c.1 == k) then
    Except.ok (h.map (fun c => if c.1 == k then (c.1, c.2 + 1) else c))
  else Except.error ()

/-- Value stored in the histogram at key `k` (0 if absent). -/
def histAt (h : List (Nat × Nat)) (k : Nat) : Nat :=
  ((h.find? (fun c => c.1 == k)).map Prod.snd).getD 0

/-- The per-claim loop of `analyze_flood_accuracy` (lines 181-185): for
each remaining claim resolve `check_flood_at_point`, bump the histogram at
the returned category (a `KeyError` propagates), and count it as covered
when the category is positive. -/
def claimsLoop (r : Raster) (lk : Row → PointLookup) :
    List Row → Nat → List (Nat × Nat) → Except Unit (Nat × List (Nat × Nat))
  | [], covered, hist => Except.ok (covered, hist)
  | u :: rest, covered, hist =>
    match histIncr hist (check_flood_at_point r (lk u)) with
    | Except.error e => Except.error e
    | Except.ok hist2 =>
      claimsLoop r lk rest
        (if 0 < check_flood_at_point r (lk u) then covered + 1 else covered)
        hist2

/-- `analyze_flood_accuracy` (src/analyze_flood_accuracy.py, lines
166-195), starting from the claims already reprojected into the raster CRS
and cropped to the raster footprint (`claims_cropped`; the reprojection
and `gpd.overlay` intersection are external geometric collaborators).
`lk` abstracts the per-geometry lookup outcomes consumed by
`check_flood_at_point` (called with `search_distance=2e-5`).  The claims
are deduplicated with `filter_unique_features` at its default precision
`1e-5` (5 decimals); an empty remainder short-circuits to the well-formed
zero result; otherwise the loop accumulates the histogram and the covered
count and `accuracy = covered / total if total > 0 else 0`. -/
def analyze_flood_accuracy (r : Raster) (lk : Row → PointLookup)
    (claims_cropped : GeoFrame) : Except Unit AccResult :=
  let claims_unique := (filter_unique_features 5 claims_cropped).filtered
  let total := claims_unique.rows.length
  if total = 0 then
    Except.ok ⟨0, 0, 0, initHist⟩
  else
    match claimsLoop r lk claims_unique.rows 0 initHist with
    | Except.error e => Except.error e
    | Except.ok (covered, hist) =>
      Except.ok ⟨total, covered,
        if 0 < total then (covered : ℚ) / (total : ℚ) else 0, hist⟩

/-- A point reprojected out of the raster bounds (negative row), whose
buffer still covers two edge cells of the raster. -/
def pOutOfBounds : PointLookup :=
  ⟨true, -1, 5, true, [(0, 5), (0, 4)]⟩

/-- A point for which the CRS reprojection raises. -/
def pBadReproject : PointLookup :=
  ⟨false, 5, 5, true, [(5, 5)]⟩

/-- An out-of-bounds point whose buffer does not overlap the raster, so
that `rasterio.mask.mask` raises. -/
def pBadMask : PointLookup :=
  ⟨true, -3, 0, false, []⟩

/-- A 1 by 2 raster: cell (0,0) holds the explicit no-flood value 0 and
cell (0,1) holds category 2. -/
def raster02 : Raster :=
  ⟨1, 2, fun _ j => if j = 1 then 2 else 0⟩

/-- A point in cell (0,0) of `raster02` (near the cell edge) whose buffer
covers both cell centers: geometrically realizable with a search radius a
little over half a cell size. -/
def pEdge : PointLookup :=
  ⟨true, 0, 0, true, [(0, 0), (0, 1)]⟩

/-- A point exactly in cell (0,1) of `raster02`, with a small buffer. -/
def pCell01 : PointLookup :=
  ⟨true, 0, 1, true, [(0, 1)]⟩

/-- A 1 by 3 raster whose cells hold the categories 0, 3, 1: the spec's
line-sampling example. -/
def raster013 : Raster :=
  ⟨1, 3, fun _ j => if j = 1 then 3 else if j = 2 then 1 else 0⟩

/-- The lookup of a line's first vertex, falling in cell (0,0) of
`raster013`. -/
def pL0 : PointLookup := ⟨true, 0, 0, true, []⟩

/-- The lookup of a line's arc-length midpoint, falling in cell (0,1) of
`raster013`. -/
def pL1 : PointLookup := ⟨true, 0, 1, true, []⟩

/-- The lookup of a line's last vertex, falling in cell (0,2) of
`raster013`. -/
def pL2 : PointLookup := ⟨true, 0, 2, true, []⟩

/-- The one-point claim collection used in concrete aggregator runs. -/
def claimAt55 : GeoFrame := ⟨[], [⟨0, 0, []⟩]⟩

/-- A single-feature collection that already carries an attribute column
named rounded_x (value 7). -/
def gBadCol : GeoFrame := ⟨["rounded_x"], [⟨0, 0, [7]⟩]⟩

/-- A two-feature collection with distinct coordinates. -/
def gUnique : GeoFrame := ⟨["a"], [⟨1, 3, [7]⟩, ⟨3, 1, [9]⟩]⟩

/-- Three features at one identical coordinate. -/
def gDup : GeoFrame := ⟨[], [⟨0, 0, []⟩, ⟨0, 0, []⟩, ⟨0, 0, []⟩]⟩

/-- The aggregate result of running the accuracy analysis over
`rasterCenter0` with the single claim of `claimAt55` (which resolves to
category 2 by buffer fallback). -/
def resW : AccResult := ⟨1, 1, 1, [(0, 0), (1, 0), (2, 1), (3, 0), (4, 0)]⟩

theorem roundHalfEven_intCast (n : ℤ) : roundHalfEven ((n : ℤ) : ℚ) = n := by
  unfold roundHalfEven
  rw [Int.floor_intCast, sub_self]
  norm_num

theorem roundDec_intCast (d : Nat) (n : ℤ) : roundDec d ((n : ℤ) : ℚ) = (n : ℚ) := by
  unfold roundDec
  have h : ((n : ℤ) : ℚ) * (10 : ℚ) ^ d = (((n * 10 ^ d : ℤ) : ℤ) : ℚ) := by
    push_cast
    ring
  rw [h, roundHalfEven_intCast]
  have h10 : ((10 : ℚ)) ^ d ≠ 0 := by positivity
  push_cast
  field_simp

theorem roundDec_zero (d : Nat) : roundDec d 0 = 0 := by
  have := roundDec_intCast d 0
  simpa using this

theorem roundDec_one (d : Nat) : roundDec d 1 = 1 := by
  have := roundDec_intCast d 1
  simpa using this

theorem roundDec_three (d : Nat) : roundDec d 3 = 3 := by
  have := roundDec_intCast d 3
  simpa using this

theorem inRasterBounds_iff (r : Raster) (row col : Int) :
    inRasterBounds r row col = true ↔
      0 ≤ row ∧ row < (r.height : Int) ∧ 0 ≤ col ∧ col < (r.width : Int) := by
  simp [inRasterBounds, Bool.and_eq_true, and_assoc]

/-- Branch normal form of the analyzer resolver: a reprojection fault
degrades to 0 through the handler; an in-bounds cell with positive value
is returned as-is; otherwise a mask fault degrades to 0 and a successful
mask returns the buffered maximum. -/
theorem check_flood_at_point_eq (r : Raster) (p : PointLookup) :
    check_flood_at_point r p =
      if p.reprojectOk = false then 0
      else if inRasterBounds r p.row p.col = true ∧ 0 < cellValue r p.row p.col then
        cellValue r p.row p.col
      else if p.maskOk = false then 0
      else bufferMax r p.bufferCells := by
  unfold check_flood_at_point check_flood_body
  split_ifs <;> simp_all [Bool.and_eq_true, decide_eq_true_eq]

/-- Branch normal form of the mapper resolver: a reprojection fault
escapes; an in-bounds cell with value in {0,...,4} is returned as-is;
otherwise a mask fault is caught as 0 and a successful mask returns the
buffered maximum when it lies in {0,...,4}, else 0. -/
theorem get_flood_category_at_point_eq (r : Raster) (p : PointLookup) :
    get_flood_category_at_point r p =
      if p.reprojectOk = false then Except.error ()
      else Except.ok (
        if inRasterBounds r p.row p.col = true ∧ cellValue r p.row p.col ≤ 4 then
          cellValue r p.row p.col
        else if p.maskOk = false then 0
        else if bufferMax r p.bufferCells ≤ 4 then bufferMax r p.bufferCells
        else 0) := by
  unfold get_flood_category_at_point
  split_ifs <;> simp_all [Bool.and_eq_true, decide_eq_true_eq]

/-- C1, counterexample.  The spec scenario: a 10 by 10 grid of category 2
with a special cell at (5, 5), and a point landing exactly there with a
buffer covering the neighbours.  The claim predicts the circular-buffer
fallback result (the neighbourhood maximum, category 2 when the special
cell holds 0, and resolution to 2 when it holds the no-data sentinel).
In fact the mapper returns 0 on the explicit no-flood cell without any
fallback, and the analyzer returns the raw sentinel 255 on the no-data
cell without any fallback. -/
theorem C1_point_fallback_counterexample :
    bufferMax rasterCenter0 p55.bufferCells = 2
    ∧ get_flood_category_at_point rasterCenter0 p55 = Except.ok 0
    ∧ check_flood_at_point rasterCenter255 p55 = 255 := by
  exact ⟨by decide, by rfl, by decide⟩

/-- C1, amended: when the reprojected point is out of the raster bounds,
both resolvers perform the circular-buffer fallback (the mapper clamping
maxima above 4 to 0).  On an in-bounds explicit no-flood (0) cell only the
analyzer falls back; the mapper returns 0 immediately.  On an in-bounds
no-data sentinel cell (value above 4) only the mapper falls back; the
analyzer returns the raw stored value immediately. -/
theorem C1_point_fallback_amended (r : Raster) (p : PointLookup)
    (hre : p.reprojectOk = true) (hm : p.maskOk = true) :
    (inRasterBounds r p.row p.col = false →
      check_flood_at_point r p = bufferMax r p.bufferCells
      ∧ get_flood_category_at_point r p =
          Except.ok (if bufferMax r p.bufferCells ≤ 4 then bufferMax r p.bufferCells else 0))
    ∧ (inRasterBounds r p.row p.col = true → cellValue r p.row p.col = 0 →
      check_flood_at_point r p = bufferMax r p.bufferCells
      ∧ get_flood_category_at_point r p = Except.ok 0)
    ∧ (inRasterBounds r p.row p.col = true → 4 < cellValue r p.row p.col →
      check_flood_at_point r p = cellValue r p.row p.col
      ∧ get_flood_category_at_point r p =
          Except.ok (if bufferMax r p.bufferCells ≤ 4 then bufferMax r p.bufferCells else 0)) := by
  rw [check_flood_at_point_eq, get_flood_category_at_point_eq, hre, hm]
  refine ⟨fun hb => ?_, fun hb hz => ?_, fun hb hs => ?_⟩
  · simp [hb]
  · simp [hb, hz]
  · constructor
    · have : 0 < cellValue r p.row p.col := by omega
      simp [hb, this]
    · have : ¬(cellValue r p.row p.col ≤ 4) := by omega
      simp [hb, this]

/-- C1, witness: an out-of-bounds point over `rasterCenter0` resolves by
buffer fallback to the neighbourhood maximum 2 in both resolvers. -/
theorem C1_point_fallback_witness :
    check_flood_at_point rasterCenter0 pOutOfBounds = 2
    ∧ get_flood_category_at_point rasterCenter0 pOutOfBounds = Except.ok 2 := by
  have h := (C1_point_fallback_amended rasterCenter0 pOutOfBounds rfl rfl).1 (by decide)
  refine ⟨?_, ?_⟩
  · rw [h.1]; decide
  · rw [h.2]; rfl

/-- C2, counterexample: a reprojection fault makes the mapper's resolver
raise to its caller (there is no handler around the reprojection), rather
than return category 0. -/
theorem C2_never_raises_counterexample :
    get_flood_category_at_point rasterCenter0 pBadReproject = Except.error () := by
  rfl

/-- C2, amended: the analyzer's resolver never raises — a reprojection
fault and a mask fault both degrade to 0.  The mapper's resolver recovers
only faults in the buffer-mask step (returning 0) and never raises once
the reprojection has succeeded, but a reprojection fault escapes to its
caller. -/
theorem C2_never_raises_amended (r : Raster) (p : PointLookup) :
    (p.reprojectOk = false →
      check_flood_at_point r p = 0
      ∧ get_flood_category_at_point r p = Except.error ())
    ∧ (p.reprojectOk = true →
      ∃ n, get_flood_category_at_point r p = Except.ok n)
    ∧ (p.reprojectOk = true → p.maskOk = false →
      ¬(inRasterBounds r p.row p.col = true ∧ 0 < cellValue r p.row p.col) →
      check_flood_at_point r p = 0)
    ∧ (p.reprojectOk = true → p.maskOk = false →
      ¬(inRasterBounds r p.row p.col = true ∧ cellValue r p.row p.col ≤ 4) →
      get_flood_category_at_point r p = Except.ok 0) := by
  rw [check_flood_at_point_eq, get_flood_category_at_point_eq]
  refine ⟨fun hre => ?_, fun hre => ?_, fun hre hm hx => ?_, fun hre hm hx => ?_⟩
  · simp [hre]
  · rw [hre]
    simp only [Bool.true_eq_false, if_false]
    exact ⟨_, rfl⟩
  · simp [hre, hm, hx]
  · simp [hre, hm, hx]

/-- C2, witness: at a concrete reprojection fault the analyzer returns 0
while the mapper raises; at a concrete mask fault on an out-of-bounds
point both degrade to 0. -/
theorem C2_never_raises_witness :
    (check_flood_at_point rasterCenter0 pBadReproject = 0
      ∧ get_flood_category_at_point rasterCenter0 pBadReproject = Except.error ())
    ∧ check_flood_at_point rasterCenter0 pBadMask = 0
    ∧ get_flood_category_at_point rasterCenter0 pBadMask = Except.ok 0 := by
  have h1 := (C2_never_raises_amended rasterCenter0 pBadReproject).1 rfl
  have h2 := (C2_never_raises_amended rasterCenter0 pBadMask).2.2.1 rfl rfl (by decide)
  have h3 := (C2_never_raises_amended rasterCenter0 pBadMask).2.2.2 rfl rfl (by decide)
  exact ⟨h1, h2, h3⟩

/-- C3: the analyzer's resolver returns the raw no-data sentinel 255 for a
point whose exact cell stores it — a value outside {0,...,4} — and the
surrounding aggregator then raises a `KeyError` at
`flood_categories[255]`, contradicting its own contract (a histogram over
the categories 0..4 and the docstring "Maximum flood category found"). -/
theorem C3_sentinel_category_bug :
    check_flood_at_point rasterCenter255 p55 = 255
    ∧ ¬(check_flood_at_point rasterCenter255 p55 ≤ 4)
    ∧ analyze_flood_accuracy rasterCenter255 (fun _ => p55) claimAt55 = Except.error () := by
  refine ⟨by decide, by decide, ?_⟩
  have hc : check_flood_at_point rasterCenter255 p55 = 255 := by decide
  simp [analyze_flood_accuracy, claimAt55, filter_unique_features, addCol, dropCols,
    lookupCol, dropDuplicatesBy, claimsLoop, histIncr, initHist, hc]

/-- C4: a point whose reprojected cell is in bounds and holds a present
(non-sentinel) value greater than 0 resolves to exactly that value in both
resolvers, and the result does not depend on the buffer (search-radius)
data at all. -/
theorem C4_exact_hit (r : Raster) (hv : ValidRaster r) (row col : Int)
    (cellsA cellsB : List (Nat × Nat)) (mA mB : Bool)
    (hb : inRasterBounds r row col = true)
    (hpos : 0 < cellValue r row col)
    (hnd : cellValue r row col ≠ 255) :
    check_flood_at_point r ⟨true, row, col, mA, cellsA⟩ = cellValue r row col
    ∧ get_flood_category_at_point r ⟨true, row, col, mA, cellsA⟩ =
        Except.ok (cellValue r row col)
    ∧ check_flood_at_point r ⟨true, row, col, mA, cellsA⟩ =
        check_flood_at_point r ⟨true, row, col, mB, cellsB⟩
    ∧ get_flood_category_at_point r ⟨true, row, col, mA, cellsA⟩ =
        get_flood_category_at_point r ⟨true, row, col, mB, cellsB⟩ := by
  have hb4 : cellValue r row col ≤ 4 := by
    rcases (inRasterBounds_iff r row col).mp hb with ⟨h1, h2, h3, h4⟩
    have hh : row.toNat < r.height := by omega
    have hw : col.toNat < r.width := by omega
    rcases hv row.toNat hh col.toNat hw with h | h
    · exact h
    · exact absurd h hnd
  rw [check_flood_at_point_eq, check_flood_at_point_eq,
    get_flood_category_at_point_eq, get_flood_category_at_point_eq]
  simp [hb, hpos, hb4]

/-- C4, witness: the in-bounds category-2 cell (0, 1) of `raster02`
resolves to 2 in both resolvers for two different buffer radii. -/
theorem C4_exact_hit_witness :
    check_flood_at_point raster02 ⟨true, 0, 1, true, [(0, 1)]⟩ = 2
    ∧ get_flood_category_at_point raster02 ⟨true, 0, 1, true, [(0, 1)]⟩ = Except.ok 2
    ∧ check_flood_at_point raster02 ⟨true, 0, 1, true, [(0, 1)]⟩ =
        check_flood_at_point raster02 ⟨true, 0, 1, false, []⟩
    ∧ get_flood_category_at_point raster02 ⟨true, 0, 1, true, [(0, 1)]⟩ =
        get_flood_category_at_point raster02 ⟨true, 0, 1, false, []⟩ := by
  have h := C4_exact_hit raster02 (by decide) 0 1 [(0, 1)] [] true false
    (by decide) (by decide) (by decide)
  exact h

/-- C5: line resolution resolves the three sampled points (first vertex,
normalized-arc-length-0.5 midpoint, last vertex) with the point resolver
and returns the maximum of the three categories; a non-LineString geometry
resolves to 0. -/
theorem C5_line_sampling (r : Raster) (a b c : PointLookup) (va vb vc : Nat)
    (ha : get_flood_category_at_point r a = Except.ok va)
    (hb : get_flood_category_at_point r b = Except.ok vb)
    (hc : get_flood_category_at_point r c = Except.ok vc) :
    get_max_flood_for_line r (RoadGeometry.lineString a b c) =
      Except.ok (Nat.max va (Nat.max vb vc))
    ∧ get_max_flood_for_line r RoadGeometry.nonLine = Except.ok 0 := by
  constructor
  · show (match get_flood_category_at_point r a with
      | Except.error e => Except.error e
      | Except.ok va =>
        match get_flood_category_at_point r b with
        | Except.error e => Except.error e
        | Except.ok vb =>
          match get_flood_category_at_point r c with
          | Except.error e => Except.error e
          | Except.ok vc => Except.ok (Nat.max va (Nat.max vb vc))) =
      Except.ok (Nat.max va (Nat.max vb vc))
    rw [ha, hb, hc]
  · rfl

/-- C5, witness: a line whose three samples resolve to the categories
0, 3, 1 resolves overall to 3 (the spec's own example). -/
theorem C5_line_sampling_witness :
    get_max_flood_for_line raster013 (RoadGeometry.lineString pL0 pL1 pL2)
      = Except.ok 3 := by
  have h := C5_line_sampling raster013 pL0 pL1 pL2 0 3 1 rfl rfl rfl
  simpa using h.1

/-- C10, counterexample: a point on an explicit no-flood (0) cell whose
buffer covers a neighbouring category-2 cell resolves to 2 in the
analyzer's resolver but to 0 in the mapper's — the two code paths are not
equivalent. -/
theorem C10_equivalence_counterexample :
    check_flood_at_point raster02 pEdge = 2
    ∧ get_flood_category_at_point raster02 pEdge = Except.ok 0 := by
  exact ⟨by decide, by rfl⟩

/-- C10, amended: the two resolvers agree whenever the exact cell is in
bounds with a value in {1,...,4}, and whenever the point is out of bounds,
the buffer mask succeeds and the buffered maximum is at most 4.  They can
differ when the exact cell holds 0 (the mapper returns 0 while the
analyzer falls back to the buffer), when it holds a value above 4 (the
analyzer returns it while the mapper falls back), and when the buffered
maximum exceeds 4. -/
theorem C10_equivalence_amended (r : Raster) (p : PointLookup)
    (hre : p.reprojectOk = true) :
    (inRasterBounds r p.row p.col = true → 0 < cellValue r p.row p.col →
      cellValue r p.row p.col ≤ 4 →
      get_flood_category_at_point r p = Except.ok (check_flood_at_point r p)
      ∧ check_flood_at_point r p = cellValue r p.row p.col)
    ∧ (inRasterBounds r p.row p.col = false → p.maskOk = true →
      bufferMax r p.bufferCells ≤ 4 →
      get_flood_category_at_point r p = Except.ok (check_flood_at_point r p)) := by
  rw [check_flood_at_point_eq, get_flood_category_at_point_eq]
  refine ⟨fun hb hpos hb4 => ?_, fun hb hm hbm => ?_⟩
  · simp [hre, hb, hpos, hb4]
  · simp [hre, hb, hm, hbm]

/-- C10, witness: the two resolvers agree (category 2) on the in-bounds
category-2 cell of `raster02`. -/
theorem C10_equivalence_witness :
    get_flood_category_at_point raster02 pCell01 =
      Except.ok (check_flood_at_point raster02 pCell01)
    ∧ check_flood_at_point raster02 pCell01 = 2 := by
  have h := (C10_equivalence_amended raster02 pCell01 rfl).1 (by decide) (by decide) (by decide)
  exact ⟨h.1, by rw [h.2]; decide⟩

theorem dropDuplicatesBy_sublist {α κ : Type} [DecidableEq κ] (key : α → κ) :
    ∀ (l : List α) (seen : List κ), (dropDuplicatesBy key seen l).Sublist l := by
  intro l
  induction l with
  | nil => intro seen; exact List.Sublist.refl []
  | cons w rest ih =>
    intro seen
    by_cases h : key w ∈ seen
    · rw [dropDuplicatesBy, if_pos h]
      exact (ih seen).cons w
    · rw [dropDuplicatesBy, if_neg h]
      exact (ih (key w :: seen)).cons₂ w

/-- Every row kept by `dropDuplicatesBy` is the first row of the input
whose key equals its own, among keys not already seen. -/
theorem dropDuplicatesBy_first {α κ : Type} [DecidableEq κ] (key : α → κ) :
    ∀ (l : List α) (seen : List κ), ∀ u ∈ dropDuplicatesBy key seen l,
      key u ∉ seen ∧ ∃ pre post, l = pre ++ u :: post ∧
        ∀ v ∈ pre, key v = key u → key v ∈ seen := by
  intro l
  induction l with
  | nil => intro seen u hu; simp [dropDuplicatesBy] at hu
  | cons w rest ih =>
    intro seen u hu
    by_cases h : key w ∈ seen
    · rw [dropDuplicatesBy, if_pos h] at hu
      obtain ⟨hns, pre, post, heq, hpre⟩ := ih seen u hu
      refine ⟨hns, w :: pre, post, by rw [heq]; rfl, ?_⟩
      intro v hv hkv
      rcases List.mem_cons.mp hv with hv' | hv'
      · rw [hv']; exact h
      · exact hpre v hv' hkv
    · rw [dropDuplicatesBy, if_neg h] at hu
      rcases List.mem_cons.mp hu with hv' | hu'
      · subst hv'
        exact ⟨h, [], rest, rfl, by simp⟩
      · obtain ⟨hns, pre, post, heq, hpre⟩ := ih (key w :: seen) u hu'
        have hnsfull : key u ∉ seen := fun hc => hns (List.mem_cons_of_mem _ hc)
        have hne : key w ≠ key u := by
          intro hc
          exact hns (by rw [← hc]; exact List.mem_cons_self _ _)
        refine ⟨hnsfull, w :: pre, post, by rw [heq]; rfl, ?_⟩
        intro v hv hkv
        rcases List.mem_cons.mp hv with hv' | hv'
        · subst hv'; exact absurd hkv hne
        · have hmem := hpre v hv' hkv
          rcases List.mem_cons.mp hmem with hc | hc
          · exact absurd (hc.symm.trans hkv) hne
          · exact hc

/-- The kept rows have pairwise distinct keys, none of them seen. -/
theorem dropDuplicatesBy_nodup {α κ : Type} [DecidableEq κ] (key : α → κ) :
    ∀ (l : List α) (seen : List κ),
      ((dropDuplicatesBy key seen l).map key).Nodup
      ∧ ∀ k ∈ (dropDuplicatesBy key seen l).map key, k ∉ seen := by
  intro l
  induction l with
  | nil => intro seen; simp [dropDuplicatesBy]
  | cons w rest ih =>
    intro seen
    by_cases h : key w ∈ seen
    · rw [dropDuplicatesBy, if_pos h]
      exact ih seen
    · rw [dropDuplicatesBy, if_neg h]
      obtain ⟨ihn, ihs⟩ := ih (key w :: seen)
      constructor
      · simp only [List.map_cons, List.nodup_cons]
        exact ⟨fun hc => (ihs _ hc) (List.mem_cons_self _ _), ihn⟩
      · intro k hk
        simp only [List.map_cons, List.mem_cons] at hk
        rcases hk with hk' | hk'
        · rw [hk']; exact h
        · exact fun hc => (ihs k hk') (List.mem_cons_of_mem _ hc)

/-- Every input key either was already seen or survives in the output. -/
theorem dropDuplicatesBy_keys_complete {α κ : Type} [DecidableEq κ] (key : α → κ) :
    ∀ (l : List α) (seen : List κ), ∀ u ∈ l,
      key u ∈ seen ∨ key u ∈ (dropDuplicatesBy key seen l).map key := by
  intro l
  induction l with
  | nil => intro seen u hu; simp at hu
  | cons w rest ih =>
    intro seen u hu
    by_cases h : key w ∈ seen
    · rw [dropDuplicatesBy, if_pos h]
      rcases List.mem_cons.mp hu with hv' | hu'
      · rw [hv']; exact Or.inl h
      · exact ih seen u hu'
    · rw [dropDuplicatesBy, if_neg h]
      rcases List.mem_cons.mp hu with hv' | hu'
      · rw [hv']; right; simp
      · rcases ih (key w :: seen) u hu' with hc | hc
        · rcases List.mem_cons.mp hc with hc' | hc'
          · right; simp [hc']
          · exact Or.inl hc'
        · right
          simp only [List.map_cons, List.mem_cons]
          exact Or.inr hc

/-- On key-unique input (none seen), deduplication keeps everything. -/
theorem dropDuplicatesBy_of_nodup {α κ : Type} [DecidableEq κ] (key : α → κ) :
    ∀ (l : List α) (seen : List κ), (l.map key).Nodup →
      (∀ u ∈ l, key u ∉ seen) → dropDuplicatesBy key seen l = l := by
  intro l
  induction l with
  | nil => intro seen _ _; rfl
  | cons w rest ih =>
    intro seen hn hs
    rw [dropDuplicatesBy, if_neg (hs w (List.mem_cons_self _ _))]
    have hn' : (∀ x ∈ rest, ¬ key x = key w) ∧ (List.map key rest).Nodup := by
      simpa using hn
    congr 1
    refine ih (key w :: seen) hn'.2 ?_
    intro u hu hc
    rcases List.mem_cons.mp hc with hc' | hc'
    · exact hn'.1 u hu hc'
    · exact hs u (List.mem_cons_of_mem _ hu) hc'

/-- When every key is already seen, deduplication keeps nothing. -/
theorem dropDuplicatesBy_const {α κ : Type} [DecidableEq κ] (key : α → κ) :
    ∀ (l : List α) (seen : List κ), (∀ u ∈ l, key u ∈ seen) →
      dropDuplicatesBy key seen l = [] := by
  intro l
  induction l with
  | nil => intro seen _; rfl
  | cons w rest ih =>
    intro seen hs
    rw [dropDuplicatesBy, if_pos (hs w (List.mem_cons_self _ _))]
    exact ih seen (fun u hu => hs u (List.mem_cons_of_mem _ hu))

/-- Deduplication commutes with a row transformation that preserves the
key. -/
theorem dropDuplicatesBy_map {α β κ : Type} [DecidableEq κ] (key : β → κ)
    (f : α → β) (rk : α → κ) :
    ∀ (l : List α) (seen : List κ), (∀ u ∈ l, key (f u) = rk u) →
      dropDuplicatesBy key seen (l.map f) = (dropDuplicatesBy rk seen l).map f := by
  intro l
  induction l with
  | nil => intro seen _; rfl
  | cons w rest ih =>
    intro seen hk
    have hw : key (f w) = rk w := hk w (List.mem_cons_self _ _)
    rw [List.map_cons, dropDuplicatesBy, dropDuplicatesBy, hw]
    by_cases h : rk w ∈ seen
    · rw [if_pos h, if_pos h, ih seen (fun u hu => hk u (List.mem_cons_of_mem _ hu))]
    · rw [if_neg h, if_neg h, List.map_cons,
        ih (rk w :: seen) (fun u hu => hk u (List.mem_cons_of_mem _ hu))]

theorem addCol_not_mem (g : GeoFrame) (name : String) (f : Row → ℚ)
    (h : name ∉ g.cols) :
    addCol g name f =
      ⟨g.cols ++ [name], g.rows.map (fun u => ⟨u.x, u.y, u.vals ++ [f u]⟩)⟩ := by
  unfold addCol
  rw [if_neg h]

/-- The two column assignments of `filter_unique_features`, on a frame with
no pre-existing column of either temporary name, append the two rounded
coordinates to every row. -/
theorem filter_unique_mutated_eq (d : Nat) (g : GeoFrame)
    (h1 : "rounded_x" ∉ g.cols) (h2 : "rounded_y" ∉ g.cols) :
    addCol (addCol g "rounded_x" (fun u => roundDec d u.x)) "rounded_y"
        (fun u => roundDec d u.y) =
      ⟨g.cols ++ ["rounded_x", "rounded_y"], g.rows.map (extRow d)⟩ := by
  rw [addCol_not_mem g _ _ h1, addCol_not_mem _ _ _ (by simp [h2])]
  simp only [List.map_map]
  congr 1
  · simp
  · refine List.map_congr_left ?_
    intro u _
    simp [Function.comp, extRow]

theorem lookupCol_extRow (d : Nat) (cols : List String)
    (h1 : "rounded_x" ∉ cols) (h2 : "rounded_y" ∉ cols)
    (u : Row) (hu : u.vals.length = cols.length) :
    lookupCol (cols ++ ["rounded_x", "rounded_y"]) "rounded_x" (extRow d u)
        = roundDec d u.x
    ∧ lookupCol (cols ++ ["rounded_x", "rounded_y"]) "rounded_y" (extRow d u)
        = roundDec d u.y := by
  unfold lookupCol extRow
  have hz : List.zip (cols ++ ["rounded_x", "rounded_y"])
      (u.vals ++ [roundDec d u.x, roundDec d u.y]) =
      List.zip cols u.vals ++
        [("rounded_x", roundDec d u.x), ("rounded_y", roundDec d u.y)] := by
    rw [List.zip_append hu.symm]
    rfl
  have hnx : (List.zip cols u.vals).find? (fun c => c.1 == "rounded_x") = none := by
    rw [List.find?_eq_none]
    intro c hc
    have := (List.of_mem_zip hc).1
    simp only [beq_iff_eq]
    intro hceq
    exact h1 (hceq ▸ this)
  have hny : (List.zip cols u.vals).find? (fun c => c.1 == "rounded_y") = none := by
    rw [List.find?_eq_none]
    intro c hc
    have := (List.of_mem_zip hc).1
    simp only [beq_iff_eq]
    intro hceq
    exact h2 (hceq ▸ this)
  constructor
  · rw [hz, List.find?_append, hnx]
    simp [List.find?]
  · rw [hz, List.find?_append, hny]
    simp [List.find?]

/-- Dropping the two temporary columns from extended rows restores the
original frame exactly. -/
theorem dropCols_extRow (d : Nat) (cols : List String)
    (h1 : "rounded_x" ∉ cols) (h2 : "rounded_y" ∉ cols)
    (l : List Row) (hl : ∀ u ∈ l, u.vals.length = cols.length) :
    dropCols ⟨cols ++ ["rounded_x", "rounded_y"], l.map (extRow d)⟩
        ["rounded_x", "rounded_y"] = ⟨cols, l⟩ := by
  unfold dropCols
  congr 1
  · rw [List.filter_append]
    have hc : cols.filter
        (fun c => decide (c ∉ ["rounded_x", "rounded_y"])) = cols := by
      rw [List.filter_eq_self]
      intro c hc
      simp only [decide_eq_true_eq, List.mem_cons, List.not_mem_nil, or_false]
      rintro (rfl | rfl)
      · exact h1 hc
      · exact h2 hc
    rw [hc]
    simp
  · rw [List.map_map]
    have hmap : ∀ u ∈ l,
        ((fun v => (⟨v.x, v.y,
            ((List.zip (cols ++ ["rounded_x", "rounded_y"]) v.vals).filter
              (fun c => decide (c.1 ∉ ["rounded_x", "rounded_y"]))).map Prod.snd⟩ :
              Row)) ∘ extRow d) u = u := by
      intro u hu
      have hz : List.zip (cols ++ ["rounded_x", "rounded_y"])
          ((extRow d u).vals) =
          List.zip cols u.vals ++
            [("rounded_x", roundDec d u.x), ("rounded_y", roundDec d u.y)] := by
        show List.zip (cols ++ ["rounded_x", "rounded_y"])
            (u.vals ++ [roundDec d u.x, roundDec d u.y]) = _
        rw [List.zip_append (hl u hu).symm]
        rfl
      simp only [Function.comp, hz, List.filter_append]
      have hfa : (List.zip cols u.vals).filter
          (fun c => decide (c.1 ∉ ["rounded_x", "rounded_y"])) =
          List.zip cols u.vals := by
        rw [List.filter_eq_self]
        intro c hc
        have := (List.of_mem_zip hc).1
        simp only [decide_eq_true_eq, List.mem_cons, List.not_mem_nil, or_false]
        rintro (hceq | hceq)
        · exact h1 (hceq ▸ this)
        · exact h2 (hceq ▸ this)
      rw [hfa]
      have hfb : ([("rounded_x", roundDec d u.x),
          ("rounded_y", roundDec d u.y)]).filter
          (fun c => decide (c.1 ∉ ["rounded_x", "rounded_y"])) = [] := by
        simp
      rw [hfb, List.append_nil,
        List.map_snd_zip cols u.vals (le_of_eq (hl u hu))]
      show (⟨u.x, u.y, u.vals⟩ : Row) = u
      rfl
    rw [List.map_congr_left hmap]
    simp

/-- Full behaviour of `filter_unique_features` on a frame with no column
named rounded_x / rounded_y: the caller's frame gains exactly the two
rounded-coordinate columns, and the returned frame is the input frame
deduplicated by rounded coordinate (first kept, order preserved), with the
removed count being the difference of lengths. -/
theorem filter_unique_spec (d : Nat) (g : GeoFrame)
    (h1 : "rounded_x" ∉ g.cols) (h2 : "rounded_y" ∉ g.cols) (hwf : FrameWF g) :
    (filter_unique_features d g).mutatedInput =
      ⟨g.cols ++ ["rounded_x", "rounded_y"], g.rows.map (extRow d)⟩
    ∧ (filter_unique_features d g).filtered =
      ⟨g.cols, dropDuplicatesBy (rkey d) [] g.rows⟩
    ∧ (filter_unique_features d g).removedCount =
      g.rows.length - (dropDuplicatesBy (rkey d) [] g.rows).length := by
  have hmut := filter_unique_mutated_eq d g h1 h2
  have hkeys : ∀ u ∈ g.rows,
      ((fun v => (lookupCol (g.cols ++ ["rounded_x", "rounded_y"]) "rounded_x" v,
        lookupCol (g.cols ++ ["rounded_x", "rounded_y"]) "rounded_y" v))
        (extRow d u)) = rkey d u := by
    intro u hu
    have hlk := lookupCol_extRow d g.cols h1 h2 u (hwf u hu)
    simp only [hlk.1, hlk.2, rkey]
  unfold filter_unique_features
  simp only [hmut]
  have hdd : dropDuplicatesBy
      (fun v => (lookupCol (g.cols ++ ["rounded_x", "rounded_y"]) "rounded_x" v,
        lookupCol (g.cols ++ ["rounded_x", "rounded_y"]) "rounded_y" v))
      [] (g.rows.map (extRow d)) =
      (dropDuplicatesBy (rkey d) [] g.rows).map (extRow d) := by
    exact dropDuplicatesBy_map _ (extRow d) (rkey d) g.rows [] hkeys
  simp only [hdd]
  refine ⟨trivial, ?_, ?_⟩
  · exact dropCols_extRow d g.cols h1 h2 (dropDuplicatesBy (rkey d) [] g.rows)
      (fun u hu => hwf u ((dropDuplicatesBy_sublist (rkey d) g.rows []).subset hu))
  · simp

/-- C6, counterexample: a collection that already carries an attribute
column named rounded_x and is already coordinate-unique is not returned
unchanged — the function overwrites that column with the rounded
x-coordinates and then drops it, so the returned collection has lost the
caller's column. -/
theorem C6_dedup_counterexample :
    (gBadCol.rows.map (rkey 5)).Nodup
    ∧ (filter_unique_features 5 gBadCol).removedCount = 0
    ∧ (filter_unique_features 5 gBadCol).filtered ≠ gBadCol := by
  have hc : (filter_unique_features 5 gBadCol).filtered.cols = [] := rfl
  refine ⟨by simp [gBadCol], ?_, fun h => ?_⟩
  · simp [filter_unique_features, gBadCol, addCol, lookupCol, dropCols,
      dropDuplicatesBy]
  · rw [h] at hc
    simp [gBadCol] at hc

/-- C6, amended: on a collection with no attribute column named rounded_x
or rounded_y, `filter_unique_features` keeps the columns, retains exactly
the first feature for each distinct coordinate rounded to the precision's
number of decimal places (preserving the original relative order), and
reports the number removed; an already-unique such collection is returned
unchanged with zero removed, and N features sharing one rounded coordinate
yield 1 retained feature and N-1 reported removed. -/
theorem C6_dedup_amended (d : Nat) (g : GeoFrame)
    (h1 : "rounded_x" ∉ g.cols) (h2 : "rounded_y" ∉ g.cols) (hwf : FrameWF g) :
    (filter_unique_features d g).filtered.cols = g.cols
    ∧ (filter_unique_features d g).filtered.rows.Sublist g.rows
    ∧ (∀ u ∈ (filter_unique_features d g).filtered.rows,
        ∃ pre post, g.rows = pre ++ u :: post ∧ ∀ v ∈ pre, rkey d v ≠ rkey d u)
    ∧ ((filter_unique_features d g).filtered.rows.map (rkey d)).Nodup
    ∧ (∀ u ∈ g.rows,
        rkey d u ∈ (filter_unique_features d g).filtered.rows.map (rkey d))
    ∧ (filter_unique_features d g).removedCount
        = g.rows.length - (filter_unique_features d g).filtered.rows.length
    ∧ ((g.rows.map (rkey d)).Nodup →
        (filter_unique_features d g).filtered = g
        ∧ (filter_unique_features d g).removedCount = 0)
    ∧ (∀ u₀ ∈ g.rows, (∀ u ∈ g.rows, rkey d u = rkey d u₀) →
        (filter_unique_features d g).filtered.rows.length = 1
        ∧ (filter_unique_features d g).removedCount = g.rows.length - 1) := by
  obtain ⟨hm, hf, hr⟩ := filter_unique_spec d g h1 h2 hwf
  have hfr : (filter_unique_features d g).filtered.rows
      = dropDuplicatesBy (rkey d) [] g.rows := by rw [hf]
  have hfc : (filter_unique_features d g).filtered.cols = g.cols := by rw [hf]
  refine ⟨hfc, ?_, ?_, ?_, ?_, ?_, ?_, ?_⟩
  · rw [hfr]
    exact dropDuplicatesBy_sublist (rkey d) g.rows []
  · intro u hu
    rw [hfr] at hu
    obtain ⟨-, pre, post, heq, hpre⟩ := dropDuplicatesBy_first (rkey d) g.rows [] u hu
    exact ⟨pre, post, heq,
      fun v hv hkv => absurd (hpre v hv hkv) (List.not_mem_nil _)⟩
  · rw [hfr]
    exact (dropDuplicatesBy_nodup (rkey d) g.rows []).1
  · intro u hu
    rw [hfr]
    rcases dropDuplicatesBy_keys_complete (rkey d) g.rows [] u hu with hc | hc
    · exact absurd hc (List.not_mem_nil _)
    · exact hc
  · rw [hr, hfr]
  · intro hn
    have hd : dropDuplicatesBy (rkey d) [] g.rows = g.rows :=
      dropDuplicatesBy_of_nodup (rkey d) g.rows [] hn (fun u _ => List.not_mem_nil _)
    constructor
    · rw [hf, hd]
    · rw [hr, hd, Nat.sub_self]
  · intro u₀ hu₀ hall
    rcases hcase : g.rows with _ | ⟨w, rest⟩
    · rw [hcase] at hu₀
      exact absurd hu₀ (List.not_mem_nil _)
    · have hw : rkey d w = rkey d u₀ :=
        hall w (by rw [hcase]; exact List.mem_cons_self _ _)
      have hconst : dropDuplicatesBy (rkey d) [rkey d w] rest = [] := by
        refine dropDuplicatesBy_const (rkey d) rest [rkey d w] ?_
        intro u hu
        rw [hall u (by rw [hcase]; exact List.mem_cons_of_mem _ hu), ← hw]
        simp
      have hd : dropDuplicatesBy (rkey d) [] (w :: rest) = [w] := by
        rw [dropDuplicatesBy, if_neg (List.not_mem_nil _), hconst]
      constructor
      · rw [hfr, hcase, hd]
        rfl
      · rw [hr, hcase, hd]
        simp

/-- C6, witness: an already-unique two-feature collection passes through
unchanged with zero removed, and three features at one coordinate are
reduced to a single feature with two reported removed. -/
theorem C6_dedup_witness :
    (filter_unique_features 5 gUnique).filtered = gUnique
    ∧ (filter_unique_features 5 gUnique).removedCount = 0
    ∧ (filter_unique_features 5 gDup).filtered.rows.length = 1
    ∧ (filter_unique_features 5 gDup).removedCount = 2 := by
  have hwfU : FrameWF gUnique := by
    intro u hu
    simp only [gUnique, List.mem_cons, List.not_mem_nil, or_false] at hu
    rcases hu with rfl | rfl <;> rfl
  have hnU : (gUnique.rows.map (rkey 5)).Nodup := by
    simp only [gUnique, rkey, List.map_cons, List.map_nil, roundDec_one, roundDec_three]
    norm_num
  have hU := (C6_dedup_amended 5 gUnique (by simp [gUnique]) (by simp [gUnique])
    hwfU).2.2.2.2.2.2.1 hnU
  have hwfD : FrameWF gDup := by
    intro u hu
    simp only [gDup, List.mem_cons, List.not_mem_nil, or_false] at hu
    rcases hu with rfl | rfl | rfl <;> rfl
  have hD := (C6_dedup_amended 5 gDup (by simp [gDup]) (by simp [gDup])
    hwfD).2.2.2.2.2.2.2 ⟨0, 0, []⟩ (by simp [gDup]) ?hall
  case hall =>
    intro u hu
    simp only [gDup, List.mem_cons, List.not_mem_nil, or_false] at hu
    rcases hu with rfl | rfl | rfl <;> rfl
  exact ⟨hU.1, hU.2, hD.1, hD.2⟩

/-- C9, counterexample: `filter_unique_features` does not leave the
caller's collection unchanged — after the call the input frame carries the
two added columns rounded_x and rounded_y. -/
theorem C9_mutation_counterexample :
    (filter_unique_features 5 claimAt55).mutatedInput.cols
      = ["rounded_x", "rounded_y"]
    ∧ claimAt55.cols = []
    ∧ (filter_unique_features 5 claimAt55).mutatedInput ≠ claimAt55 := by
  have hc : (filter_unique_features 5 claimAt55).mutatedInput.cols
      = ["rounded_x", "rounded_y"] := rfl
  refine ⟨hc, rfl, fun h => ?_⟩
  rw [h] at hc
  simp [claimAt55] at hc

/-- C9, amended: on a collection with no column named rounded_x or
rounded_y, the call appends exactly those two columns (holding the rounded
coordinates) to the caller's frame; every pre-existing column, coordinate
and attribute value is preserved — dropping the two added columns restores
the original frame exactly. -/
theorem C9_mutation_amended (d : Nat) (g : GeoFrame)
    (h1 : "rounded_x" ∉ g.cols) (h2 : "rounded_y" ∉ g.cols) (hwf : FrameWF g) :
    (filter_unique_features d g).mutatedInput.cols
      = g.cols ++ ["rounded_x", "rounded_y"]
    ∧ (filter_unique_features d g).mutatedInput.rows = g.rows.map (extRow d)
    ∧ dropCols (filter_unique_features d g).mutatedInput
        ["rounded_x", "rounded_y"] = g := by
  obtain ⟨hm, -, -⟩ := filter_unique_spec d g h1 h2 hwf
  refine ⟨by rw [hm], by rw [hm], ?_⟩
  rw [hm]
  exact dropCols_extRow d g.cols h1 h2 g.rows hwf

/-- C9, witness: on the one-point collection the caller's frame gains the
two columns, and dropping them restores the original frame. -/
theorem C9_mutation_witness :
    (filter_unique_features 5 claimAt55).mutatedInput.cols
      = ["rounded_x", "rounded_y"]
    ∧ dropCols (filter_unique_features 5 claimAt55).mutatedInput
        ["rounded_x", "rounded_y"] = claimAt55 := by
  have hwf : FrameWF claimAt55 := by
    intro u hu
    simp only [claimAt55, List.mem_cons, List.not_mem_nil, or_false] at hu
    rw [hu]
    rfl
  have h := C9_mutation_amended 5 claimAt55 (by simp [claimAt55])
    (by simp [claimAt55]) hwf
  exact ⟨h.1, h.2.2⟩

theorem histIncr_ok (hist : List (Nat × Nat)) (k : Nat) (h2 : List (Nat × Nat))
    (hok : histIncr hist k = Except.ok h2) :
    hist.any (fun c => c.1 == k) = true
    ∧ h2 = hist.map (fun c => if c.1 == k then (c.1, c.2 + 1) else c) := by
  unfold histIncr at hok
  split at hok
  · refine ⟨by assumption, ?_⟩
    cases hok
    rfl
  · cases hok

theorem histAt_cons_pos (c : Nat × Nat) (t : List (Nat × Nat)) (j : Nat)
    (h : (c.1 == j) = true) : histAt (c :: t) j = c.2 := by
  unfold histAt
  rw [List.find?_cons, h]
  rfl

theorem histAt_cons_neg (c : Nat × Nat) (t : List (Nat × Nat)) (j : Nat)
    (h : (c.1 == j) = false) : histAt (c :: t) j = histAt t j := by
  unfold histAt
  rw [List.find?_cons, h]

theorem histUpd_head_pos (k : Nat) (c : Nat × Nat) (h : c.1 = k) :
    (if c.1 == k then (c.1, c.2 + 1) else c) = (c.1, c.2 + 1) := by
  simp [h]

theorem histUpd_head_neg (k : Nat) (c : Nat × Nat) (h : ¬ c.1 = k) :
    (if c.1 == k then (c.1, c.2 + 1) else c) = c := by
  simp [h]

theorem histUpd_keys (k : Nat) (hist : List (Nat × Nat)) :
    (hist.map (fun c => if c.1 == k then (c.1, c.2 + 1) else c)).map Prod.fst
      = hist.map Prod.fst := by
  rw [List.map_map]
  refine List.map_congr_left ?_
  intro c _
  by_cases hc : c.1 = k <;> simp [Function.comp, hc]

theorem histUpd_sum (k : Nat) :
    ∀ hist : List (Nat × Nat), (hist.map Prod.fst).Nodup →
      hist.any (fun c => c.1 == k) = true →
      ((hist.map (fun c => if c.1 == k then (c.1, c.2 + 1) else c)).map
        Prod.snd).sum = (hist.map Prod.snd).sum + 1 := by
  intro hist
  induction hist with
  | nil => intro _ hany; cases hany
  | cons c rest ih =>
    intro hnd hany
    rw [List.map_cons, List.nodup_cons] at hnd
    by_cases hck : c.1 = k
    · have hrest : rest.map (fun c => if c.1 == k then (c.1, c.2 + 1) else c)
          = rest := by
        have h0 : rest.map (fun c => if c.1 == k then (c.1, c.2 + 1) else c)
            = rest.map (fun x => x) := by
          refine List.map_congr_left ?_
          intro x hx
          refine histUpd_head_neg k x ?_
          intro hxx
          exact hnd.1 (by rw [hck, ← hxx]; exact List.mem_map_of_mem Prod.fst hx)
        rw [h0]
        simp
      rw [List.map_cons, histUpd_head_pos k c hck, hrest, List.map_cons,
        List.sum_cons, List.map_cons, List.sum_cons]
      omega
    · have hany' : rest.any (fun c => c.1 == k) = true := by
        rcases List.any_eq_true.mp hany with ⟨x, hx, hxk⟩
        rcases List.mem_cons.mp hx with hx' | hx'
        · exact absurd (beq_iff_eq.mp (hx' ▸ hxk)) hck
        · exact List.any_eq_true.mpr ⟨x, hx', hxk⟩
      rw [List.map_cons, histUpd_head_neg k c hck, List.map_cons, List.sum_cons,
        List.map_cons, List.sum_cons, ih hnd.2 hany']
      omega

theorem histUpd_histAt_ne (k j : Nat) (hne : j ≠ k) :
    ∀ hist : List (Nat × Nat),
      histAt (hist.map (fun c => if c.1 == k then (c.1, c.2 + 1) else c)) j
        = histAt hist j := by
  intro hist
  induction hist with
  | nil => rfl
  | cons c rest ih =>
    by_cases hck : c.1 = k
    · have hcj : (c.1 == j) = false := by
        rw [beq_eq_false_iff_ne]
        intro hcc
        exact hne (hcc.symm.trans hck)
      rw [List.map_cons, histUpd_head_pos k c hck,
        histAt_cons_neg (c.1, c.2 + 1) _ _ hcj, histAt_cons_neg c _ _ hcj, ih]
    · rw [List.map_cons, histUpd_head_neg k c hck]
      rcases hcj : (c.1 == j) with _ | _
      · rw [histAt_cons_neg c _ _ hcj, histAt_cons_neg c _ _ hcj, ih]
      · rw [histAt_cons_pos c _ _ hcj, histAt_cons_pos c _ _ hcj]

theorem histUpd_histAt_eq (k : Nat) :
    ∀ hist : List (Nat × Nat), hist.any (fun c => c.1 == k) = true →
      histAt (hist.map (fun c => if c.1 == k then (c.1, c.2 + 1) else c)) k
        = histAt hist k + 1 := by
  intro hist
  induction hist with
  | nil => intro hany; cases hany
  | cons c rest ih =>
    intro hany
    by_cases hck : c.1 = k
    · have hb : (c.1 == k) = true := beq_iff_eq.mpr hck
      rw [List.map_cons, histUpd_head_pos k c hck,
        histAt_cons_pos (c.1, c.2 + 1) _ _ hb, histAt_cons_pos c _ _ hb]
    · have hany' : rest.any (fun c => c.1 == k) = true := by
        rcases List.any_eq_true.mp hany with ⟨x, hx, hxk⟩
        rcases List.mem_cons.mp hx with hx' | hx'
        · exact absurd (beq_iff_eq.mp (hx' ▸ hxk)) hck
        · exact List.any_eq_true.mpr ⟨x, hx', hxk⟩
      have hb : (c.1 == k) = false := beq_eq_false_iff_ne.mpr hck
      rw [List.map_cons, histUpd_head_neg k c hck, histAt_cons_neg c _ _ hb,
        histAt_cons_neg c _ _ hb, ih hany']

/-- Invariant of the per-claim loop: keys are preserved, the histogram
total grows by one per processed claim, the covered count counts exactly
the claims resolving to a positive category, and the zero bucket counts
exactly the claims resolving to 0. -/
theorem claimsLoop_spec (r : Raster) (lk : Row → PointLookup) :
    ∀ (rows : List Row) (covered : Nat) (hist : List (Nat × Nat)),
      (hist.map Prod.fst).Nodup →
      ∀ c' h', claimsLoop r lk rows covered hist = Except.ok (c', h') →
      h'.map Prod.fst = hist.map Prod.fst
      ∧ (h'.map Prod.snd).sum = (hist.map Prod.snd).sum + rows.length
      ∧ c' = covered + (rows.filter
          (fun u => decide (0 < check_flood_at_point r (lk u)))).length
      ∧ histAt h' 0 = histAt hist 0 + (rows.filter
          (fun u => check_flood_at_point r (lk u) == 0)).length := by
  intro rows
  induction rows with
  | nil =>
    intro covered hist hnd c' h' hok
    cases hok
    simp
  | cons u rest ih =>
    intro covered hist hnd c' h' hok
    rw [claimsLoop] at hok
    cases hin : histIncr hist (check_flood_at_point r (lk u)) with
    | error e => rw [hin] at hok; cases hok
    | ok hist2 =>
      rw [hin] at hok
      obtain ⟨hany, rfl⟩ := histIncr_ok hist _ hist2 hin
      have hnd2 : ((hist.map fun c =>
          if c.1 == check_flood_at_point r (lk u) then (c.1, c.2 + 1) else c).map
          Prod.fst).Nodup := by
        rw [histUpd_keys]
        exact hnd
      obtain ⟨ihk, ihs, ihc, ihz⟩ := ih _ _ hnd2 c' h' hok
      refine ⟨?_, ?_, ?_, ?_⟩
      · rw [ihk, histUpd_keys]
      · rw [ihs, histUpd_sum _ hist hnd hany]
        simp only [List.length_cons]
        omega
      · rw [ihc]
        by_cases hc : 0 < check_flood_at_point r (lk u)
        · rw [@List.filter_cons_of_pos _
            (fun v => decide (0 < check_flood_at_point r (lk v))) u rest
            (decide_eq_true hc), List.length_cons, if_pos hc]
          omega
        · rw [@List.filter_cons_of_neg _
            (fun v => decide (0 < check_flood_at_point r (lk v))) u rest
            (by simpa using hc), if_neg hc]
      · rw [ihz]
        by_cases hc : check_flood_at_point r (lk u) = 0
        · have hb : (check_flood_at_point r (lk u) == 0) = true :=
            beq_iff_eq.mpr hc
          rw [@List.filter_cons_of_pos _
            (fun v => check_flood_at_point r (lk v) == 0) u rest hb,
            List.length_cons]
          rw [hc] at hany ⊢
          rw [histUpd_histAt_eq 0 hist hany]
          omega
        · have hb : ¬ (check_flood_at_point r (lk u) == 0) = true := by
            simpa using hc
          rw [@List.filter_cons_of_neg _
            (fun v => check_flood_at_point r (lk v) == 0) u rest hb,
            histUpd_histAt_ne _ 0 (fun hz => hc hz.symm) hist]

theorem filter_pos_add_filter_zero (r : Raster) (lk : Row → PointLookup) :
    ∀ rows : List Row,
      (rows.filter (fun u => decide (0 < check_flood_at_point r (lk u)))).length
      + (rows.filter (fun u => check_flood_at_point r (lk u) == 0)).length
      = rows.length := by
  intro rows
  induction rows with
  | nil => rfl
  | cons u rest ih =>
    by_cases hc : 0 < check_flood_at_point r (lk u)
    · have hz : ¬ (check_flood_at_point r (lk u) == 0) = true := by
        simp only [beq_iff_eq]
        omega
      rw [@List.filter_cons_of_pos _
        (fun v => decide (0 < check_flood_at_point r (lk v))) u rest
        (decide_eq_true hc),
        @List.filter_cons_of_neg _
        (fun v => check_flood_at_point r (lk v) == 0) u rest hz]
      simp only [List.length_cons]
      omega
    · have hz : (check_flood_at_point r (lk u) == 0) = true := by
        simp only [beq_iff_eq]
        omega
      rw [@List.filter_cons_of_neg _
        (fun v => decide (0 < check_flood_at_point r (lk v))) u rest
        (by simpa using hc),
        @List.filter_cons_of_pos _
        (fun v => check_flood_at_point r (lk v) == 0) u rest hz]
      simp only [List.length_cons]
      omega

/-- C7: whenever the accuracy aggregator returns a result, the five-bucket
histogram sums to the total claim count, covered plus the zero bucket
equals the total, the covered count is exactly the number of deduplicated
claims resolving to a positive category, and the histogram has exactly the
buckets 0..4. -/
theorem C7_histogram_conservation (r : Raster) (lk : Row → PointLookup)
    (g : GeoFrame) (res : AccResult)
    (hok : analyze_flood_accuracy r lk g = Except.ok res) :
    (res.flood_categories.map Prod.snd).sum = res.total_claims
    ∧ res.covered_claims + histAt res.flood_categories 0 = res.total_claims
    ∧ res.covered_claims = ((filter_unique_features 5 g).filtered.rows.filter
        (fun u => decide (0 < check_flood_at_point r (lk u)))).length
    ∧ res.flood_categories.map Prod.fst = [0, 1, 2, 3, 4] := by
  simp only [analyze_flood_accuracy] at hok
  split at hok
  · rename_i htot
    cases hok
    refine ⟨rfl, rfl, ?_, rfl⟩
    rw [List.length_eq_zero.mp htot]
    rfl
  · rename_i htot
    split at hok
    · cases hok
    · rename_i covered hist hloop
      cases hok
      dsimp only
      obtain ⟨hk, hs, hc, hz⟩ := claimsLoop_spec r lk
        (filter_unique_features 5 g).filtered.rows 0 initHist (by decide)
        covered hist hloop
      have hzero : histAt initHist 0 = 0 := rfl
      have hsum0 : (initHist.map Prod.snd).sum = 0 := rfl
      have hcomp := filter_pos_add_filter_zero r lk
        (filter_unique_features 5 g).filtered.rows
      refine ⟨?_, ?_, ?_, ?_⟩
      · rw [hs, hsum0]
        omega
      · rw [hc, hz, hzero]
        omega
      · rw [hc]
        omega
      · rw [hk]
        rfl

/-- C7, witness: the single-claim run over `rasterCenter0` returns the
result `resW`, whose histogram sums to the total, with covered plus the
zero bucket equal to the total. -/
theorem C7_histogram_conservation_witness :
    (resW.flood_categories.map Prod.snd).sum = resW.total_claims
    ∧ resW.covered_claims + histAt resW.flood_categories 0 = resW.total_claims
    ∧ resW.flood_categories.map Prod.fst = [0, 1, 2, 3, 4] := by
  have hc : check_flood_at_point rasterCenter0 p55 = 2 := by decide
  have hok : analyze_flood_accuracy rasterCenter0 (fun _ => p55) claimAt55
      = Except.ok resW := by
    simp [analyze_flood_accuracy, claimAt55, resW, filter_unique_features, addCol,
      dropCols, lookupCol, dropDuplicatesBy, claimsLoop, histIncr, initHist, hc]
  have h := C7_histogram_conservation rasterCenter0 (fun _ => p55) claimAt55
    resW hok
  exact ⟨h.1, h.2.1, h.2.2.2⟩

/-- C8: a run in which zero features remain after cropping and
deduplication returns the well-formed zero result (total 0, covered 0,
accuracy 0, all-zero histogram) without raising; and whenever a returned
result has a positive total, its accuracy equals covered divided by
total. -/
theorem C8_empty_batch (r : Raster) (lk : Row → PointLookup) (g : GeoFrame) :
    ((filter_unique_features 5 g).filtered.rows.length = 0 →
      analyze_flood_accuracy r lk g
        = Except.ok ⟨0, 0, 0, [(0, 0), (1, 0), (2, 0), (3, 0), (4, 0)]⟩)
    ∧ (∀ res, analyze_flood_accuracy r lk g = Except.ok res →
      0 < res.total_claims →
      res.accuracy = (res.covered_claims : ℚ) / (res.total_claims : ℚ)) := by
  constructor
  · intro h
    simp only [analyze_flood_accuracy]
    rw [if_pos h]
    rfl
  · intro res hok htot
    simp only [analyze_flood_accuracy] at hok
    split at hok
    · rename_i h0
      cases hok
      simp at htot
    · rename_i h0
      split at hok
      · cases hok
      · rename_i covered hist hloop
        cases hok
        dsimp only
        dsimp only at htot
        rw [if_pos htot]

/-- C8, witness: the aggregator on an empty collection returns the zero
result, and the one-claim run `resW` has accuracy equal to covered over
total. -/
theorem C8_empty_batch_witness :
    analyze_flood_accuracy rasterCenter0 (fun _ => p55) ⟨[], []⟩
      = Except.ok ⟨0, 0, 0, [(0, 0), (1, 0), (2, 0), (3, 0), (4, 0)]⟩
    ∧ resW.accuracy = (resW.covered_claims : ℚ) / (resW.total_claims : ℚ) := by
  constructor
  · exact (C8_empty_batch rasterCenter0 (fun _ => p55) ⟨[], []⟩).1 rfl
  · have hc : check_flood_at_point rasterCenter0 p55 = 2 := by decide
    have hok : analyze_flood_accuracy rasterCenter0 (fun _ => p55) claimAt55
        = Except.ok resW := by
      simp [analyze_flood_accuracy, claimAt55, resW, filter_unique_features,
        addCol, dropCols, lookupCol, dropDuplicatesBy, claimsLoop, histIncr,
        initHist, hc]
    exact (C8_empty_batch rasterCenter0 (fun _ => p55) claimAt55).2 resW hok
      (by decide)
